import Mathlib

/-!
Verification of the click-tutorial repository (src/click_tutorial.py) against
its natural-language specification.  The Python source is shallowly embedded:
JSON documents become the inductive type `JValue`, Python exceptions become the
`PyErr` sum type carried in `Except`, the chunked file reader `read_file`
becomes `read_chunks`, the CLI query commands `get_results` / `get_text`
become pure functions on the embedded documents, and the `assembly`
upload-and-poll workflow becomes `assembly_submit` (the two submission
requests) plus `assembly_poll` (the status-polling loop), driven by an
explicit trace of remote responses.
-/

namespace ClickTutorial

/-- Model of a parsed JSON value (the result of `response.json()` or
`json.load`): strings, integers, arrays and objects (objects as ordered
association lists, as Python dicts preserve insertion order). -/
inductive JValue : Type where
  | str : String → JValue
  | num : Int → JValue
  | arr : List JValue → JValue
  | obj : List (String × JValue) → JValue

/-- Python exceptions that the embedded code can raise: `KeyError` with the
missing key, `TypeError` (e.g. `+` on incompatible values, subscripting a
non-dict, concatenating a non-string), `AttributeError` (e.g. `.split` on a
non-string), `json.JSONDecodeError` (malformed response body) and a
transport-level `requests` exception (connection error / timeout). -/
inductive PyErr : Type where
  | keyError : String → PyErr
  | typeError : PyErr
  | attributeError : PyErr
  | jsonDecodeError : PyErr
  | transportError : PyErr
deriving DecidableEq

/-- Association-list lookup used to model Python dict subscripting on the
embedded objects (dict keys are unique, so first match is the match). -/
def lookupKV : List (String × JValue) → String → Option JValue
  | [], _ => none
  | (k0, v0) :: t, k => if k0 = k then some v0 else lookupKV t k

/-- Python `value[key]`: on a dict it is lookup (raising `KeyError` when the
key is absent), on any other JSON value a string subscript raises
`TypeError`. -/
def JValue.getKey : JValue → String → Except PyErr JValue
  | .obj kvs, k =>
    match lookupKV kvs k with
    | some v => .ok v
    | none => .error (.keyError k)
  | .str _, _ => .error .typeError
  | .num _, _ => .error .typeError
  | .arr _, _ => .error .typeError

/-- Python `a + b` (and `a += b`) on JSON values: string concatenation,
integer addition, list concatenation; any other combination (including two
dicts) raises `TypeError`. -/
def vplus : JValue → JValue → Except PyErr JValue
  | .str a, .str b => .ok (.str (a ++ b))
  | .num a, .num b => .ok (.num (a + b))
  | .arr a, .arr b => .ok (.arr (a ++ b))
  | _, _ => .error .typeError

mutual
/-- Model of `json.dumps` on an embedded JSON value (default separators
", " and ": ", string escaping elided). -/
def dumps : JValue → String
  | .str s => "\"" ++ s ++ "\""
  | .num n => toString n
  | .arr xs => "[" ++ dumpsArr xs ++ "]"
  | .obj kvs => "\x7b" ++ dumpsObj kvs ++ "\x7d"

/-- `json.dumps` of the elements of a JSON array, comma-separated. -/
def dumpsArr : List JValue → String
  | [] => ""
  | [x] => dumps x
  | x :: y :: t => dumps x ++ ", " ++ dumpsArr (y :: t)

/-- `json.dumps` of the members of a JSON object, comma-separated
`"key": value` pairs. -/
def dumpsObj : List (String × JValue) → String
  | [] => ""
  | [(k, v)] => "\"" ++ k ++ "\": " ++ dumps v
  | (k, v) :: p :: t => "\"" ++ k ++ "\": " ++ dumps v ++ ", " ++ dumpsObj (p :: t)
end

/-! ## The chunked upload reader (src/click_tutorial.py lines 198, 205-211)

`CHUNK_SIZE = 5242880`; `read_file` opens the file and repeatedly yields
`_file.read(CHUNK_SIZE)` until a falsy (empty) read, i.e. it splits the byte
sequence into successive chunks of `CHUNK_SIZE` bytes, the last one possibly
shorter.  Bytes are modelled as a `List Nat`. -/

def CHUNK_SIZE : Nat := 5242880

/-- The generator loop of `read_file`: each iteration reads `n` bytes
(`l.take n`), stops on an empty read, and yields the chunk otherwise.
`read(0)` returns an empty bytes object in Python, so `n = 0` stops at once. -/
def read_chunks (n : Nat) (l : List Nat) : List (List Nat) :=
  if h : l = [] then []
  else if hn : n = 0 then []
  else l.take n :: read_chunks n (l.drop n)
termination_by l.length
decreasing_by
  simp only [List.length_drop]
  have hl : 0 < l.length := List.length_pos.mpr h
  have : 0 < n := Nat.pos_of_ne_zero hn
  omega

/-- `read_file` from the source: the whole byte stream split into
`CHUNK_SIZE`-byte chunks. -/
def read_file (l : List Nat) : List (List Nat) :=
  read_chunks CHUNK_SIZE l

/-! ## The `get_results` command (src/click_tutorial.py lines 106-126)

An entry of the document's `results` list is a JSON object, modelled as an
association list. -/

/-- One entry of the `results` list of the transcription document: a JSON
object / Python dict. -/
abbrev Entry := List (String × JValue)

/-- Python dict lookup on an entry, `entry[key]` guarded by `key in entry`. -/
def elookup : Entry → String → Option JValue
  | [], _ => none
  | (k0, v0) :: t, k => if k0 = k then some v0 else elookup t k

/-- Python dict assignment `d[key] = v` on an entry: overwrite in place when
the key is present (insertion order is preserved), append otherwise. -/
def eset : Entry → String → JValue → Entry
  | [], k, v => [(k, v)]
  | (k0, v0) :: t, k, v => if k0 = k then (k, v) :: t else (k0, v0) :: eset t k v

/-- The `for entry in results` loop of `get_results` when a `--key` was
passed: for each entry containing `key`, either initialise `result[key]` or
accumulate with `result[key] += entry[key]` (which can raise `TypeError`). -/
def get_results_loop (key : String) (result : Entry) : List Entry → Except PyErr Entry
  | [] => .ok result
  | entry :: rest =>
    match elookup entry key with
    | none => get_results_loop key result rest
    | some v =>
      match elookup result key with
      | none => get_results_loop key (eset result key v) rest
      | some cur =>
        match vplus cur v with
        | .error e => .error e
        | .ok s => get_results_loop key (eset result key s) rest

/-- The dictionary computed by `get_results` for a given `--key`: the loop
started from the empty dict `result = {}`. -/
def get_results_key (results : List Entry) (key : String) : Except PyErr Entry :=
  get_results_loop key [] results

/-- Left-to-right fold of Python `+` over a nonempty list of values,
propagating `TypeError`. -/
def foldPlus : JValue → List JValue → Except PyErr JValue
  | v, [] => .ok v
  | v, w :: ws =>
    match vplus v w with
    | .error e => .error e
    | .ok s => foldPlus s ws

/-- Follows the claim wording (C10), not the source: the dictionary mapping
`key` to the left-to-right fold with `+` of `entry[key]` over exactly those
entries of `results` that contain `key`, and the empty dictionary when no
entry contains `key`. -/
def get_results_fold_spec (results : List Entry) (key : String) : Except PyErr Entry :=
  match results.filterMap (fun e => elookup e key) with
  | [] => .ok []
  | v :: vs =>
    match foldPlus v vs with
    | .error e => .error e
    | .ok s => .ok [(key, s)]

/-! ## The `get_text` command (src/click_tutorial.py lines 150-183) -/

/-- A key of the `text` dict built by `get_text`: the code mixes integer
keys (`text[idx] = ...`, `text[i] = ...`) and the string key `text["text"]`
in the same Python dict. -/
inductive TKey : Type where
  | ikey : Nat → TKey
  | skey : String → TKey
deriving DecidableEq

/-- The `text` dict of `get_text`, with its mixed integer/string keys. -/
abbrev TDict := List (TKey × JValue)

/-- Python dict lookup on the `text` dict. -/
def tlookup : TDict → TKey → Option JValue
  | [], _ => none
  | (k0, v0) :: t, k => if k0 = k then some v0 else tlookup t k

/-- Python dict assignment on the `text` dict. -/
def tset : TDict → TKey → JValue → TDict
  | [], k, v => [(k, v)]
  | (k0, v0) :: t, k, v => if k0 = k then (k, v) :: t else (k0, v0) :: tset t k v

/-- Python `del d[k]` on the `text` dict. -/
def tdel : TDict → TKey → TDict
  | [], _ => []
  | (k0, v0) :: t, k => if k0 = k then t else (k0, v0) :: tdel t k

/-- The `for idx, entry in enumerate(results)` loop of `get_text`: with
`--paragraphs` it stores `entry["text"]` under the integer index, otherwise
it accumulates everything under the single key `"text"`; `entry["text"]` on
an entry without the key raises `KeyError`. -/
def build_text_loop (paragraphs : Bool) (idx : Nat) (text : TDict) :
    List Entry → Except PyErr TDict
  | [] => .ok text
  | entry :: rest =>
    match elookup entry "text" with
    | none => .error (.keyError "text")
    | some v =>
      if paragraphs then
        build_text_loop paragraphs (idx + 1) (tset text (.ikey idx) v) rest
      else
        match tlookup text (.skey "text") with
        | none => build_text_loop paragraphs (idx + 1) (tset text (.skey "text") v) rest
        | some cur =>
          match vplus cur v with
          | .error e => .error e
          | .ok s => build_text_loop paragraphs (idx + 1) (tset text (.skey "text") s) rest

/-- Helper for `split_dot`: Python `str.split(".")` over the remaining
characters, `cur` being the reversed characters of the piece being built. -/
def split_dot_aux (cur : List Char) : List Char → List String
  | [] => [String.mk cur.reverse]
  | c :: rest =>
    if c = '.' then String.mk cur.reverse :: split_dot_aux [] rest
    else split_dot_aux (c :: cur) rest

/-- Python `s.split(".")` — the split in the sentences branch of `get_text`.
It always yields at least one piece (`"".split(".") == [""]`), so the
resulting list is always truthy. -/
def split_dot (s : String) : List String :=
  split_dot_aux [] s.data

/-- The `for i in range(len(sentences))` loop of `get_text`: store each
nonempty sentence under its integer index. -/
def fill_sentences_loop (i : Nat) (text : TDict) : List String → TDict
  | [] => text
  | s :: rest =>
    if s = "" then fill_sentences_loop (i + 1) text rest
    else fill_sentences_loop (i + 1) (tset text (.ikey i) (.str s)) rest

/-- `json.dumps(results)` for a `results` list of entries (`w.write(...)` in
the download branches of `get_text`). -/
def dumps_results (results : List Entry) : String :=
  dumps (.arr (results.map .obj))

/-- What `get_text` shows and writes: the `pprint`-ed `text` dict and, with
`--download`, the filename and content written to it. -/
structure TextOut : Type where
  displayed : TDict
  written : Option (String × String)

/-- The body of `get_text` (lines 155-183): build the `text` dict, rework it
into sentences when `--sentences` was passed (the variable `sentences` is
rebound to the split list, which is always nonempty and hence truthy),
`pprint` it, and with `--download` write `json.dumps(results)` — the original
`results` list, untouched by this command — to the flag-selected filename. -/
def get_text (results : List Entry) (sentences paragraphs download : Bool) :
    Except PyErr TextOut :=
  match build_text_loop paragraphs 0 [] results with
  | .error e => .error e
  | .ok text0 =>
    let afterSent : Except PyErr (TDict × Bool) :=
      if sentences then
        match tlookup text0 (.skey "text") with
        | none => .error (.keyError "text")
        | some tv =>
          match tv with
          | .str s =>
            let parts := split_dot s
            .ok (tdel (fill_sentences_loop 0 text0 parts) (.skey "text"), !parts.isEmpty)
          | _ => .error .attributeError
      else .ok (text0, false)
    match afterSent with
    | .error e => .error e
    | .ok (text, sentTruthy) =>
      .ok ⟨text,
        if download then
          some (if paragraphs then "paragraphs.json"
                else if sentTruthy then "sentences.json"
                else "text.json",
               dumps_results results)
        else none⟩

/-! ## The `assembly` upload-and-poll workflow (src/click_tutorial.py lines 200-242)

An HTTP response is its status code together with what `.json()` yields
(either a parsed body or a `JSONDecodeError`); the remote's successive
answers to the status polls are an explicit trace of steps, each one either a
response or a raised transport exception. -/

/-- An HTTP response as the embedded code sees it: the status code and the
outcome of `response.json()`. -/
structure HttpResponse : Type where
  status : Nat
  body : Except PyErr JValue

/-- What `assembly` computes from the two submission requests: the
`upload_url` taken from the upload response, the JSON body of the second
(job-creation) request, and the `id` taken from its response. -/
structure SubmitOk : Type where
  audio_url : JValue
  transcript_request : JValue
  transcript_id : String

/-- Python `str` coercion point: `transcript_id` is concatenated into
`polling_endpoint`, which raises `TypeError` unless it is a string. -/
def asStr : JValue → Except PyErr String
  | .str s => .ok s
  | _ => .error .typeError

/-- The submission phase of `assembly` (lines 213-226): read `upload_url`
from the upload response, post the job-creation request
`{audio_url: ..., iab_categories: "True"}` and read `id` from its response.
The HTTP status codes are never inspected; each missing field raises
`KeyError`.  `transcriptPost` maps the job-creation request body to the
remote's response. -/
def assembly_submit (uploadResp : HttpResponse)
    (transcriptPost : JValue → HttpResponse) : Except PyErr SubmitOk :=
  match uploadResp.body with
  | .error e => .error e
  | .ok uj =>
    match uj.getKey "upload_url" with
    | .error e => .error e
    | .ok audio_url =>
      let req := JValue.obj [("audio_url", audio_url), ("iab_categories", .str "True")]
      match (transcriptPost req).body with
      | .error e => .error e
      | .ok tj =>
        match tj.getKey "id" with
        | .error e => .error e
        | .ok idv =>
          match asStr idv with
          | .error e => .error e
          | .ok tid => .ok ⟨audio_url, req, tid⟩

/-- One answer of the remote to a `requests.get(polling_endpoint)`: either a
response or a raised transport exception. -/
inductive PollStep : Type where
  | resp : HttpResponse → PollStep
  | raiseExc : PollStep

/-- The lines the polling phase prints, in order: `"Transcribing at"` with
the polling endpoint (`transcript_endpoint + "/" + transcript_id`, so the
job id is part of the printed text), `"Transcript processing ..."` each
iteration, the two-line notice of the `except` branch ending in
`"call poll with id"` and the id, and `"Categories saved to"` with the
file name. -/
inductive Msg : Type where
  | transcribingAt : String → Msg
  | processing : Msg
  | abortNotice : String → Msg
  | savedTo : String → Msg
deriving DecidableEq

/-- How the polling phase of `assembly` ends.  `sleeps` counts the executed
`sleep(30)` calls, so the total suspension is `30 * sleeps` seconds.
`saved` is the success path (categories file written, `ctx.obj` set from the
response's `id`); `savedThenErr` is the path where the file was written but
the final `['id']` lookup raised; `aborted` is the `except` branch
(`return transcript_id`); `uncaught` is an exception escaping the function;
`exhausted` means the supplied remote trace ran out with the loop still
polling. -/
inductive WaitOutcome : Type where
  | saved : String → String → JValue → Nat → WaitOutcome
  | savedThenErr : String → String → PyErr → Nat → WaitOutcome
  | aborted : String → Nat → WaitOutcome
  | uncaught : PyErr → Nat → WaitOutcome
  | exhausted : Nat → WaitOutcome

/-- The loop condition `polling_response.json()['status'] != 'completed'`:
Python `!=` across types is plain inequality, so the loop exits exactly when
the status value is the string `"completed"`. -/
def isCompletedVal : JValue → Bool
  | .str s => s == "completed"
  | _ => false

/-- The code after the loop (lines 238-242): write
`polling_response.json()['iab_categories_result']` to
`transcript_id + "_categories.json"` (a missing payload field raises
`KeyError` before anything is written), then set `ctx.obj` from the
response's `id` field. -/
def finishPoll (tid : String) (j : JValue) (sleeps : Nat) : List Msg × WaitOutcome :=
  match j.getKey "iab_categories_result" with
  | .error e => ([], .uncaught e sleeps)
  | .ok payload =>
    let fn := tid ++ "_categories.json"
    match j.getKey "id" with
    | .error e => ([.savedTo fn], .savedThenErr fn (dumps payload) e sleeps)
    | .ok idv => ([.savedTo fn], .saved fn (dumps payload) idv sleeps)

/-- The `while` loop of lines 229-237, entered with an already-fetched
response `r`: evaluate the loop condition (uncaught `JSONDecodeError` /
`KeyError` when the body or its `status` field is bad — the condition is
outside the `try`), finish on `"completed"`, otherwise `sleep(30)`, print,
and re-poll inside the `try` (a transport exception there returns
`transcript_id`). -/
def loopFrom (tid : String) (r : HttpResponse) (rest : List PollStep) (sleeps : Nat) :
    List Msg × WaitOutcome :=
  match r.body with
  | .error e => ([], .uncaught e sleeps)
  | .ok j =>
    match j.getKey "status" with
    | .error e => ([], .uncaught e sleeps)
    | .ok st =>
      if isCompletedVal st then finishPoll tid j sleeps
      else
        match rest with
        | [] => ([.processing], .exhausted (sleeps + 1))
        | .raiseExc :: _ => ([.processing, .abortNotice tid], .aborted tid (sleeps + 1))
        | .resp r2 :: rest2 =>
          let next := loopFrom tid r2 rest2 (sleeps + 1)
          (.processing :: next.1, next.2)

/-- The polling phase of `assembly` (lines 227-242): print
`"Transcribing at"` with the endpoint (which embeds the job id), issue the
first status request — this one is *outside* the `try`, so a transport
exception here is uncaught — and run the `while` loop on the remote's trace
of answers. -/
def assembly_poll (tid : String) (first : PollStep) (rest : List PollStep) :
    List Msg × WaitOutcome :=
  match first with
  | .raiseExc => ([.transcribingAt tid], .uncaught .transportError 0)
  | .resp r =>
    let run := loopFrom tid r rest 0
    (.transcribingAt tid :: run.1, run.2)

/-- A response whose parsed body carries a `status` field that is not the
string `"completed"` (so the loop keeps going on it). -/
def respNonCompleted (r : HttpResponse) : Bool :=
  match r.body with
  | .ok j =>
    match j.getKey "status" with
    | .ok st => !isCompletedVal st
    | .error _ => false
  | .error _ => false

/-- A trace step that keeps the loop going: a response with a
non-`"completed"` status. -/
def stepNonCompleted : PollStep → Bool
  | .resp r => respNonCompleted r
  | .raiseExc => false

/-- The remote's `status: "processing"` answer. -/
def processingResp : HttpResponse :=
  ⟨200, .ok (.obj [("status", .str "processing")])⟩

/-- The remote's terminal-failure answer, `status: "failed"`. -/
def failedResp : HttpResponse :=
  ⟨200, .ok (.obj [("status", .str "failed")])⟩

/-! ## Lemmas about the chunk reader -/

theorem read_chunks_nil (n : Nat) : read_chunks n [] = [] := by
  rw [read_chunks]
  simp

theorem read_chunks_cons (n : Nat) (l : List Nat) (hn : n ≠ 0) (hl : l ≠ []) :
    read_chunks n l = l.take n :: read_chunks n (l.drop n) := by
  rw [read_chunks]
  simp [hn, hl]

theorem read_chunks_join (n : Nat) (hn : 0 < n) (l : List Nat) :
    (read_chunks n l).flatten = l := by
  have H : ∀ (m : Nat) (l : List Nat), l.length ≤ m → (read_chunks n l).flatten = l := by
    intro m
    induction m with
    | zero =>
      intro l h
      have hl : l = [] := List.eq_nil_of_length_eq_zero (Nat.le_zero.mp h)
      subst hl
      rw [read_chunks_nil]
      rfl
    | succ m ih =>
      intro l h
      by_cases hl : l = []
      · subst hl
        rw [read_chunks_nil]
        rfl
      · rw [read_chunks_cons n l (Nat.pos_iff_ne_zero.mp hn) hl]
        have hd : (l.drop n).length ≤ m := by
          rw [List.length_drop]
          have : 0 < l.length := List.length_pos.mpr hl
          omega
        simp only [List.flatten]
        rw [ih (l.drop n) hd, List.take_append_drop]
  exact H l.length l (Nat.le_refl _)

theorem read_chunks_mem (n : Nat) (hn : 0 < n) (l : List Nat) :
    ∀ c ∈ read_chunks n l, c ≠ [] ∧ c.length ≤ n := by
  have H : ∀ (m : Nat) (l : List Nat), l.length ≤ m →
      ∀ c ∈ read_chunks n l, c ≠ [] ∧ c.length ≤ n := by
    intro m
    induction m with
    | zero =>
      intro l h c hc
      have hl : l = [] := List.eq_nil_of_length_eq_zero (Nat.le_zero.mp h)
      subst hl
      rw [read_chunks_nil] at hc
      cases hc
    | succ m ih =>
      intro l h c hc
      by_cases hl : l = []
      · subst hl
        rw [read_chunks_nil] at hc
        cases hc
      · rw [read_chunks_cons n l (Nat.pos_iff_ne_zero.mp hn) hl] at hc
        cases hc with
        | head =>
          constructor
          · intro htake
            have := List.take_eq_nil_iff.mp htake
            rcases this with h0 | h0
            · exact absurd h0 (Nat.pos_iff_ne_zero.mp hn)
            · exact hl h0
          · rw [List.length_take]
            exact Nat.min_le_left _ _
        | tail _ hc2 =>
          have hd : (l.drop n).length ≤ m := by
            rw [List.length_drop]
            have : 0 < l.length := List.length_pos.mpr hl
            omega
          exact ih (l.drop n) hd c hc2
  exact H l.length l (Nat.le_refl _)

theorem read_chunks_eq_nil_iff (n : Nat) (hn : 0 < n) (l : List Nat) :
    read_chunks n l = [] ↔ l = [] := by
  constructor
  · intro h
    by_contra hl
    rw [read_chunks_cons n l (Nat.pos_iff_ne_zero.mp hn) hl] at h
    cases h
  · intro h
    subst h
    exact read_chunks_nil n

theorem read_chunks_dropLast (n : Nat) (hn : 0 < n) (l : List Nat) :
    ∀ c ∈ (read_chunks n l).dropLast, c.length = n := by
  have H : ∀ (m : Nat) (l : List Nat), l.length ≤ m →
      ∀ c ∈ (read_chunks n l).dropLast, c.length = n := by
    intro m
    induction m with
    | zero =>
      intro l h c hc
      have hl : l = [] := List.eq_nil_of_length_eq_zero (Nat.le_zero.mp h)
      subst hl
      rw [read_chunks_nil] at hc
      cases hc
    | succ m ih =>
      intro l h c hc
      by_cases hl : l = []
      · subst hl
        rw [read_chunks_nil] at hc
        cases hc
      · rw [read_chunks_cons n l (Nat.pos_iff_ne_zero.mp hn) hl] at hc
        by_cases hdl : l.drop n = []
        · rw [hdl, read_chunks_nil] at hc
          cases hc
        · have hcons : read_chunks n (l.drop n) =
              (l.drop n).take n :: read_chunks n ((l.drop n).drop n) :=
            read_chunks_cons n (l.drop n) (Nat.pos_iff_ne_zero.mp hn) hdl
          rw [hcons] at hc
          simp only [List.dropLast] at hc
          rw [← hcons] at hc
          have hd : (l.drop n).length ≤ m := by
            rw [List.length_drop]
            have : 0 < l.length := List.length_pos.mpr hl
            omega
          cases hc with
          | head =>
            have hnlt : n < l.length := by
              have := List.length_drop n l
              have h0 : 0 < (l.drop n).length := List.length_pos.mpr hdl
              omega
            rw [List.length_take]
            omega
          | tail _ hc2 =>
            exact ih (l.drop n) hd c hc2
  exact H l.length l (Nat.le_refl _)

/-- Claim C4: for every readable non-empty byte source, `read_file` yields
the file's bytes as a sequence of chunks of the fixed chunk size
(`CHUNK_SIZE = 5242880` bytes, the last chunk possibly shorter), in order,
such that concatenating the yielded chunks reproduces the exact original
byte sequence. -/
theorem c4_read_file_roundtrip (l : List Nat) (h : l ≠ []) :
    CHUNK_SIZE = 5242880 ∧
    read_file l ≠ [] ∧
    (read_file l).flatten = l ∧
    (∀ c ∈ read_file l, c ≠ [] ∧ c.length ≤ CHUNK_SIZE) ∧
    (∀ c ∈ (read_file l).dropLast, c.length = CHUNK_SIZE) := by
  have hn : 0 < CHUNK_SIZE := by
    rw [CHUNK_SIZE]
    omega
  refine ⟨rfl, ?_, read_chunks_join CHUNK_SIZE hn l, read_chunks_mem CHUNK_SIZE hn l,
    read_chunks_dropLast CHUNK_SIZE hn l⟩
  intro hnil
  exact h ((read_chunks_eq_nil_iff CHUNK_SIZE hn l).mp hnil)

/-- Witness for C4 at the concrete byte source `[7, 8, 9]`. -/
theorem c4_read_file_roundtrip_witness :
    ([7, 8, 9] : List Nat) ≠ [] ∧
    (CHUNK_SIZE = 5242880 ∧
     read_file [7, 8, 9] ≠ [] ∧
     (read_file [7, 8, 9]).flatten = [7, 8, 9] ∧
     (∀ c ∈ read_file [7, 8, 9], c ≠ [] ∧ c.length ≤ CHUNK_SIZE) ∧
     (∀ c ∈ (read_file [7, 8, 9]).dropLast, c.length = CHUNK_SIZE)) :=
  ⟨by decide, c4_read_file_roundtrip [7, 8, 9] (by decide)⟩

/-! ## Lemmas about `get_results` -/

theorem elookup_single (key : String) (v : JValue) :
    elookup [(key, v)] key = some v := by
  simp [elookup]

theorem eset_single (key : String) (v w : JValue) :
    eset [(key, v)] key w = [(key, w)] := by
  simp [eset]

theorem get_results_loop_single (key : String) (rs : List Entry) :
    ∀ v : JValue,
      get_results_loop key [(key, v)] rs =
        match foldPlus v (rs.filterMap (fun e => elookup e key)) with
        | .error e => .error e
        | .ok s => .ok [(key, s)] := by
  induction rs with
  | nil =>
    intro v
    rfl
  | cons e rs ih =>
    intro v
    cases he : elookup e key with
    | none =>
      simp only [get_results_loop, he, List.filterMap_cons, ih v]
    | some w =>
      simp only [get_results_loop, he, elookup_single, List.filterMap_cons]
      cases hp : vplus v w with
      | error err => simp [foldPlus, hp]
      | ok s => simp [foldPlus, hp, eset_single, ih s]

/-- Claim C10: for every input document and every key `k` passed via
`--key`, `get_results` produces the dictionary mapping `k` to the
left-to-right fold with `+` of `entry[k]` over exactly those entries of the
`results` list that contain `k` (strings concatenate, numbers sum, lists
append, mixed types raise `TypeError`); when no entry contains `k`, the
result is the empty dictionary. -/
theorem c10_get_results_key_is_fold (results : List Entry) (key : String) :
    get_results_key results key = get_results_fold_spec results key := by
  rw [get_results_key, get_results_fold_spec]
  induction results with
  | nil => rfl
  | cons e rs ih =>
    cases he : elookup e key with
    | none =>
      simp only [get_results_loop, he, List.filterMap_cons]
      exact ih
    | some w =>
      simp only [get_results_loop, he, List.filterMap_cons]
      have h0 : elookup ([] : Entry) key = none := rfl
      rw [h0]
      have : eset [] key w = [(key, w)] := rfl
      rw [this, get_results_loop_single key rs w]

/-! ## Lemmas about `get_text` -/

theorem tlookup_tset_of_ne (t : TDict) (k k2 : TKey) (v : JValue) (hne : k ≠ k2) :
    tlookup (tset t k v) k2 = tlookup t k2 := by
  induction t with
  | nil => simp [tset, tlookup, hne]
  | cons p t ih =>
    obtain ⟨k0, v0⟩ := p
    by_cases h0 : k0 = k
    · subst h0
      simp [tset, tlookup, hne]
    · simp only [tset, if_neg h0, tlookup, ih]

theorem build_text_loop_para (rs : List Entry) :
    ∀ (idx : Nat) (text : TDict), (∀ s, tlookup text (.skey s) = none) →
      build_text_loop true idx text rs = .error (.keyError "text") ∨
      ∃ t, build_text_loop true idx text rs = .ok t ∧
        ∀ s, tlookup t (.skey s) = none := by
  induction rs with
  | nil =>
    intro idx text htext
    exact Or.inr ⟨text, rfl, htext⟩
  | cons e rs ih =>
    intro idx text htext
    cases he : elookup e "text" with
    | none =>
      left
      simp [build_text_loop, he]
    | some v =>
      have hstep : ∀ s, tlookup (tset text (.ikey idx) v) (.skey s) = none := by
        intro s
        rw [tlookup_tset_of_ne text (.ikey idx) (.skey s) v (by simp)]
        exact htext s
      rcases ih (idx + 1) (tset text (.ikey idx) v) hstep with h | ⟨t, h, ht⟩
      · left
        simpa [build_text_loop, he] using h
      · right
        refine ⟨t, ?_, ht⟩
        simpa [build_text_loop, he] using h

/-- Claim C8: for every input document whose `results` field is a list
(including the empty list), `get_text` invoked with both `--paragraphs` and
`--sentences` raises an uncaught `KeyError` on the key `"text"`: the
paragraphs branch stores text only under integer indices, so the sentences
branch's read of `text["text"]` always fails (and an entry without a
`"text"` field already fails on the same key inside the loop). -/
theorem c8_get_text_both_flags_keyerror (results : List Entry) (download : Bool) :
    get_text results true true download = .error (.keyError "text") := by
  rw [get_text]
  rcases build_text_loop_para results 0 [] (fun s => rfl) with h | ⟨t, h, ht⟩
  · rw [h]
  · rw [h]
    simp [ht "text"]

/-- Claim C9: for every input document and every flag combination on which
`get_text` terminates normally, invoking it with `--download` writes a file
(`text.json`, `sentences.json` or `paragraphs.json`) whose content is the
JSON serialization of the original `results` list of the input document —
not the text/sentences/paragraphs dictionary that was computed and
displayed. -/
theorem c9_get_text_download_writes_results (results : List Entry)
    (sentences paragraphs : Bool) (out : TextOut)
    (h : get_text results sentences paragraphs true = .ok out) :
    out.written.isSome = true ∧
    ∀ fn content, out.written = some (fn, content) →
      content = dumps_results results ∧
      (fn = "paragraphs.json" ∨ fn = "sentences.json" ∨ fn = "text.json") := by
  rw [get_text] at h
  cases hb : build_text_loop paragraphs 0 [] results with
  | error e =>
    rw [hb] at h
    cases h
  | ok text0 =>
    rw [hb] at h
    by_cases hs : sentences
    · subst hs
      simp only [if_pos rfl] at h
      cases hl : tlookup text0 (.skey "text") with
      | none =>
        rw [hl] at h
        cases h
      | some tv =>
        rw [hl] at h
        cases tv with
        | str s =>
          simp only at h
          cases h
          refine ⟨rfl, ?_⟩
          intro fn content hfc
          cases hp : paragraphs with
          | true =>
            rw [hp] at hfc
            simp at hfc
            obtain ⟨h1, h2⟩ := hfc
            subst h1
            subst h2
            exact ⟨rfl, Or.inl rfl⟩
          | false =>
            rw [hp] at hfc
            by_cases hemp : (split_dot s).isEmpty
            · simp [hemp] at hfc
              obtain ⟨h1, h2⟩ := hfc
              subst h1
              subst h2
              exact ⟨rfl, Or.inr (Or.inr rfl)⟩
            · simp only [Bool.not_eq_true] at hemp
              simp [hemp] at hfc
              obtain ⟨h1, h2⟩ := hfc
              subst h1
              subst h2
              exact ⟨rfl, Or.inr (Or.inl rfl)⟩
        | num n => cases h
        | arr xs => cases h
        | obj kvs => cases h
    · simp only [if_neg hs] at h
      cases h
      refine ⟨rfl, ?_⟩
      intro fn content hfc
      cases hp : paragraphs with
      | true =>
        rw [hp] at hfc
        simp at hfc
        obtain ⟨h1, h2⟩ := hfc
        subst h1
        subst h2
        exact ⟨rfl, Or.inl rfl⟩
      | false =>
        rw [hp] at hfc
        simp at hfc
        obtain ⟨h1, h2⟩ := hfc
        subst h1
        subst h2
        exact ⟨rfl, Or.inr (Or.inr rfl)⟩

/-- Witness for C9 at the concrete document with one entry
`{"text": "ab"}` and no flags besides `--download`: the file written is
`text.json` and its content is the serialization of the `results` list. -/
theorem c9_get_text_download_writes_results_witness :
    dumps_results [[("text", JValue.str "ab")]] =
      dumps_results [[("text", JValue.str "ab")]] ∧
    ("text.json" = "paragraphs.json" ∨ "text.json" = "sentences.json" ∨
      "text.json" = "text.json") :=
  (c9_get_text_download_writes_results [[("text", JValue.str "ab")]] false false
      ⟨[(.skey "text", .str "ab")],
        some ("text.json", dumps_results [[("text", JValue.str "ab")]])⟩ rfl).2
    "text.json" (dumps_results [[("text", JValue.str "ab")]]) rfl

/-! ## Lemmas about the polling loop -/

/-- What the loop lines after a non-`"completed"` status produce from the
remaining trace: nothing more on an exhausted trace, the abort notice on a
transport exception, the rest of the run otherwise. -/
def tailMsgs (tid : String) (s : Nat) : List PollStep → List Msg
  | [] => []
  | .raiseExc :: _ => [.abortNotice tid]
  | .resp r2 :: rest2 => (loopFrom tid r2 rest2 s).1

/-- How the loop ends after a non-`"completed"` status, as a function of the
remaining trace. -/
def tailOutcome (tid : String) (s : Nat) : List PollStep → WaitOutcome
  | [] => .exhausted s
  | .raiseExc :: _ => .aborted tid s
  | .resp r2 :: rest2 => (loopFrom tid r2 rest2 s).2

theorem loopFrom_nonterm (tid : String) (r : HttpResponse)
    (hr : respNonCompleted r = true) (rest : List PollStep) (s : Nat) :
    loopFrom tid r rest s =
      (.processing :: tailMsgs tid (s + 1) rest, tailOutcome tid (s + 1) rest) := by
  obtain ⟨code, body⟩ := r
  cases body with
  | error e => simp [respNonCompleted] at hr
  | ok j =>
    cases hst : j.getKey "status" with
    | error e =>
      rw [respNonCompleted] at hr
      simp only [hst] at hr
      cases hr
    | ok st =>
      rw [respNonCompleted] at hr
      simp only [hst, Bool.not_eq_eq_eq_not, Bool.not_true] at hr
      cases rest with
      | nil => simp [loopFrom, hst, hr, tailMsgs, tailOutcome]
      | cons p rest2 =>
        cases p with
        | raiseExc => simp [loopFrom, hst, hr, tailMsgs, tailOutcome]
        | resp r2 => simp [loopFrom, hst, hr, tailMsgs, tailOutcome]

theorem loopFrom_completed (tid : String) (code : Nat) (j : JValue)
    (hc : j.getKey "status" = .ok (.str "completed")) (rest : List PollStep) (s : Nat) :
    loopFrom tid (.mk code (.ok j)) rest s = finishPoll tid j s := by
  cases rest with
  | nil => simp [loopFrom, hc, isCompletedVal]
  | cons p rest2 => cases p <;> simp [loopFrom, hc, isCompletedVal]

theorem loopFrom_append (tid : String) (pre : List PollStep) :
    ∀ (r : HttpResponse) (s : Nat) (tail : List PollStep),
      respNonCompleted r = true → (∀ p ∈ pre, stepNonCompleted p = true) →
      (loopFrom tid r (pre ++ tail) s).2 = tailOutcome tid (s + pre.length + 1) tail := by
  induction pre with
  | nil =>
    intro r s tail hr _
    rw [List.nil_append, loopFrom_nonterm tid r hr tail s]
    simp
  | cons p pre ih =>
    intro r s tail hr hpre
    have hp : stepNonCompleted p = true := hpre p (List.mem_cons_self p pre)
    cases p with
    | raiseExc => simp [stepNonCompleted] at hp
    | resp r2 =>
      have hr2 : respNonCompleted r2 = true := hp
      rw [List.cons_append, loopFrom_nonterm tid r hr (.resp r2 :: (pre ++ tail)) s]
      show (loopFrom tid r2 (pre ++ tail) (s + 1)).2 = _
      rw [ih r2 (s + 1) tail hr2 (fun q hq => hpre q (List.mem_cons_of_mem _ hq))]
      have harith : s + 1 + pre.length + 1 = s + (pre.length + 1) + 1 := by omega
      rw [harith]
      rfl

theorem loopFrom_abortNotice_mem (tid : String) (pre : List PollStep) :
    ∀ (r : HttpResponse) (s : Nat) (rest : List PollStep),
      respNonCompleted r = true → (∀ p ∈ pre, stepNonCompleted p = true) →
      .abortNotice tid ∈ (loopFrom tid r (pre ++ .raiseExc :: rest) s).1 := by
  induction pre with
  | nil =>
    intro r s rest hr _
    rw [List.nil_append, loopFrom_nonterm tid r hr (.raiseExc :: rest) s]
    simp [tailMsgs]
  | cons p pre ih =>
    intro r s rest hr hpre
    have hp : stepNonCompleted p = true := hpre p (List.mem_cons_self p pre)
    cases p with
    | raiseExc => simp [stepNonCompleted] at hp
    | resp r2 =>
      have hr2 : respNonCompleted r2 = true := hp
      rw [List.cons_append,
        loopFrom_nonterm tid r hr (.resp r2 :: (pre ++ .raiseExc :: rest)) s]
      show _ ∈ Msg.processing :: (loopFrom tid r2 (pre ++ .raiseExc :: rest) (s + 1)).1
      exact List.mem_cons_of_mem _
        (ih r2 (s + 1) rest hr2 (fun q hq => hpre q (List.mem_cons_of_mem _ hq)))

/-- The JSON body the remote sends for a finished job: terminal status,
the categories payload and the job id. -/
def completedRespJson (payload idv : JValue) : JValue :=
  .obj [("status", .str "completed"), ("iab_categories_result", payload), ("id", idv)]

/-! ## Claims about the polling loop -/

/-- Counterexample to claim C1 as stated: the loop condition compares the
status only against `"completed"`, so a remote that reports the terminal
status `"failed"` does not stop the loop.  After the first `"failed"`
report the loop has already slept once and keeps polling (instead of the
claimed immediate termination with zero further sleeps), after three
`"failed"` reports it has slept three times and is still polling, and no
outcome constructor ever hands a `failed` status back to the caller. -/
theorem c1_counterexample :
    assembly_poll "j1" (.resp failedResp) [] =
      ([.transcribingAt "j1", .processing], .exhausted 1) ∧
    assembly_poll "j1" (.resp failedResp) [.resp failedResp, .resp failedResp] =
      ([.transcribingAt "j1", .processing, .processing, .processing], .exhausted 3) :=
  ⟨rfl, rfl⟩

/-- Claim C1, amended: the wait loop polls at the fixed 30-second interval
and terminates with a result only when the remote reports status
`"completed"`; any other status — including the terminal `"failed"` — makes
the loop sleep and re-poll indefinitely, so a `failed` status is never
returned to the caller as a result value.  Concretely: on any run of
non-`"completed"` reports the loop is still polling after the whole run
(one sleep per report), and appending a `"completed"` report makes it
terminate right there with the saved result. -/
theorem c1_wait_loop_stops_only_on_completed (tid : String) (r : HttpResponse)
    (pre : List PollStep) (hr : respNonCompleted r = true)
    (hpre : ∀ p ∈ pre, stepNonCompleted p = true) :
    (assembly_poll tid (.resp r) pre).2 = .exhausted (pre.length + 1) ∧
    ∀ (code : Nat) (j payload idv : JValue),
      j.getKey "status" = .ok (.str "completed") →
      j.getKey "iab_categories_result" = .ok payload →
      j.getKey "id" = .ok idv →
      (assembly_poll tid (.resp r) (pre ++ [.resp ⟨code, .ok j⟩])).2 =
        .saved (tid ++ "_categories.json") (dumps payload) idv (pre.length + 1) := by
  constructor
  · show (loopFrom tid r pre 0).2 = _
    have h := loopFrom_append tid pre r 0 [] hr hpre
    rw [List.append_nil] at h
    rw [h]
    show WaitOutcome.exhausted (0 + pre.length + 1) = _
    rw [Nat.zero_add]
  · intro code j payload idv hc hp hid
    show (loopFrom tid r (pre ++ [.resp ⟨code, .ok j⟩]) 0).2 = _
    rw [loopFrom_append tid pre r 0 [.resp ⟨code, .ok j⟩] hr hpre]
    show (loopFrom tid ⟨code, .ok j⟩ [] (0 + pre.length + 1)).2 = _
    rw [loopFrom_completed tid code j hc [] (0 + pre.length + 1), Nat.zero_add]
    simp [finishPoll, hp, hid]

/-- Witness for the amended C1 at a concrete run: one `"failed"` report
followed by one `"processing"` report leaves the loop still polling after
two sleeps, and a subsequent `"completed"` report ends it with the saved
result. -/
theorem c1_wait_loop_stops_only_on_completed_witness :
    (assembly_poll "w1" (.resp failedResp) [.resp processingResp]).2 = .exhausted 2 ∧
    (assembly_poll "w1" (.resp failedResp)
        ([.resp processingResp] ++
          [.resp ⟨200, .ok (completedRespJson (.obj [("x", .num 1)]) (.str "w1"))⟩])).2 =
      .saved ("w1" ++ "_categories.json") (dumps (.obj [("x", .num 1)])) (.str "w1") 2 :=
  ⟨(c1_wait_loop_stops_only_on_completed "w1" failedResp [.resp processingResp] rfl
      (by decide)).1,
   (c1_wait_loop_stops_only_on_completed "w1" failedResp [.resp processingResp] rfl
      (by decide)).2 200 (completedRespJson (.obj [("x", .num 1)]) (.str "w1"))
      (.obj [("x", .num 1)]) (.str "w1") rfl rfl rfl⟩

/-- Claim C2: the very first line the polling phase prints is
`"Transcribing at"` with the polling endpoint, which embeds the job id, so
every path of the polling phase — including an uncaught transport failure on
the very first status request — surfaces the job id; and when a re-poll
inside the loop raises a transport error, the loop aborts immediately
(returning the job id, without consuming any further remote answers,
i.e. without retrying) and prints the abort notice carrying the job id. -/
theorem c2_abort_paths_surface_job_id (tid : String) :
    (∀ (first : PollStep) (rest : List PollStep),
        (assembly_poll tid first rest).1.head? = some (.transcribingAt tid)) ∧
    ∀ (r : HttpResponse) (pre rest : List PollStep),
      respNonCompleted r = true → (∀ p ∈ pre, stepNonCompleted p = true) →
      (assembly_poll tid (.resp r) (pre ++ .raiseExc :: rest)).2 =
          .aborted tid (pre.length + 1) ∧
        .abortNotice tid ∈ (assembly_poll tid (.resp r) (pre ++ .raiseExc :: rest)).1 := by
  constructor
  · intro first rest
    cases first with
    | raiseExc => rfl
    | resp r => rfl
  · intro r pre rest hr hpre
    constructor
    · show (loopFrom tid r (pre ++ .raiseExc :: rest) 0).2 = _
      rw [loopFrom_append tid pre r 0 (.raiseExc :: rest) hr hpre]
      show WaitOutcome.aborted tid (0 + pre.length + 1) = _
      rw [Nat.zero_add]
    · show _ ∈ Msg.transcribingAt tid :: (loopFrom tid r (pre ++ .raiseExc :: rest) 0).1
      exact List.mem_cons_of_mem _ (loopFrom_abortNotice_mem tid pre r 0 rest hr hpre)

/-- Witness for C2: the id heads the output even when the very first status
request raises, and a transport error on the second re-poll aborts with the
job id after two sleeps, leaving the rest of the trace unconsumed. -/
theorem c2_abort_paths_surface_job_id_witness :
    (assembly_poll "w2" .raiseExc []).1.head? = some (.transcribingAt "w2") ∧
    (assembly_poll "w2" (.resp processingResp)
        ([.resp failedResp] ++ .raiseExc :: [.resp processingResp])).2 =
      .aborted "w2" 2 :=
  ⟨(c2_abort_paths_surface_job_id "w2").1 .raiseExc [],
   ((c2_abort_paths_surface_job_id "w2").2 processingResp [.resp failedResp]
      [.resp processingResp] rfl (by decide)).1⟩

/-- Claim C3: when the poll observes a `"completed"` status, the saved
result carries exactly the `iab_categories_result` payload reported by the
remote; when the remote indicates completion but the response body omits
the payload field, the operation fails — with an uncaught `KeyError`, the
code's realization of a poll-phase error — and never succeeds with an empty
or substituted payload. -/
theorem c3_completed_requires_payload (tid : String) (code : Nat) (j : JValue)
    (rest : List PollStep)
    (hc : j.getKey "status" = .ok (.str "completed")) :
    (∀ e, j.getKey "iab_categories_result" = .error e →
      (assembly_poll tid (.resp ⟨code, .ok j⟩) rest).2 = .uncaught e 0) ∧
    ∀ payload idv, j.getKey "iab_categories_result" = .ok payload →
      j.getKey "id" = .ok idv →
      (assembly_poll tid (.resp ⟨code, .ok j⟩) rest).2 =
        .saved (tid ++ "_categories.json") (dumps payload) idv 0 := by
  constructor
  · intro e he
    show (loopFrom tid ⟨code, .ok j⟩ rest 0).2 = _
    rw [loopFrom_completed tid code j hc rest 0]
    simp [finishPoll, he]
  · intro payload idv hp hid
    show (loopFrom tid ⟨code, .ok j⟩ rest 0).2 = _
    rw [loopFrom_completed tid code j hc rest 0]
    simp [finishPoll, hp, hid]

/-- Witness for C3: a completion body without the payload field ends in an
uncaught `KeyError` on `"iab_categories_result"`; a full completion body
ends with the payload saved verbatim. -/
theorem c3_completed_requires_payload_witness :
    (assembly_poll "w3" (.resp ⟨200, .ok (.obj [("status", .str "completed")])⟩) []).2 =
      .uncaught (.keyError "iab_categories_result") 0 ∧
    (assembly_poll "w3"
        (.resp ⟨200, .ok (completedRespJson (.obj [("y", .num 2)]) (.str "w3"))⟩) []).2 =
      .saved ("w3" ++ "_categories.json") (dumps (.obj [("y", .num 2)])) (.str "w3") 0 :=
  ⟨(c3_completed_requires_payload "w3" 200 (.obj [("status", .str "completed")]) [] rfl).1
      (.keyError "iab_categories_result") rfl,
   (c3_completed_requires_payload "w3" 200
      (completedRespJson (.obj [("y", .num 2)]) (.str "w3")) [] rfl).2
      (.obj [("y", .num 2)]) (.str "w3") rfl rfl⟩

/-- Counterexample to claim C5 as stated: the polling phase of `assembly`
accepts no deadline and has no timeout failure at all.  Here the remote
needs four 30-second intervals (120 seconds of suspension) to complete —
longer than, say, a 60-second deadline — yet the run returns the saved
completed result instead of failing with any `TimeoutError`. -/
theorem c5_counterexample :
    (assembly_poll "j5" (.resp processingResp)
        [.resp processingResp, .resp processingResp, .resp processingResp,
         .resp ⟨200, .ok (completedRespJson (.obj [("x", .num 1)]) (.str "j5"))⟩]).2 =
      .saved ("j5" ++ "_categories.json") (dumps (.obj [("x", .num 1)])) (.str "j5") 4 ∧
    30 * 4 > 60 :=
  ⟨rfl, by decide⟩

/-- Claim C5, amended: the code's wait loop takes no deadline and never
fails with a timeout; however long the remote keeps reporting
`"processing"`, the loop keeps sleeping and re-polling and finally returns
the saved completed result — after `n + 1` suspensions for `n` extra
processing reports, i.e. after an arbitrarily long wait.  The job id is
preserved on the only abort path (transport error), not via any timeout. -/
theorem c5_no_deadline_no_timeout (n : Nat) (tid : String) (code : Nat)
    (j payload idv : JValue)
    (hc : j.getKey "status" = .ok (.str "completed"))
    (hp : j.getKey "iab_categories_result" = .ok payload)
    (hid : j.getKey "id" = .ok idv) :
    (assembly_poll tid (.resp processingResp)
        (List.replicate n (.resp processingResp) ++ [.resp ⟨code, .ok j⟩])).2 =
      .saved (tid ++ "_categories.json") (dumps payload) idv (n + 1) := by
  have hpre : ∀ p ∈ List.replicate n (PollStep.resp processingResp),
      stepNonCompleted p = true := by
    intro p hmem
    rw [List.eq_of_mem_replicate hmem]
    rfl
  show (loopFrom tid processingResp
      (List.replicate n (.resp processingResp) ++ [.resp ⟨code, .ok j⟩]) 0).2 = _
  rw [loopFrom_append tid (List.replicate n (.resp processingResp)) processingResp 0
    [.resp ⟨code, .ok j⟩] rfl hpre]
  show (loopFrom tid ⟨code, .ok j⟩ []
      (0 + (List.replicate n (PollStep.resp processingResp)).length + 1)).2 = _
  rw [loopFrom_completed tid code j hc []]
  simp [finishPoll, hp, hid]

/-- Witness for the amended C5 with two extra processing reports: the run
completes after three suspensions and no timeout failure exists. -/
theorem c5_no_deadline_no_timeout_witness :
    (assembly_poll "w5" (.resp processingResp)
        (List.replicate 2 (.resp processingResp) ++
          [.resp ⟨200, .ok (completedRespJson (.arr []) (.str "w5"))⟩])).2 =
      .saved ("w5" ++ "_categories.json") (dumps (.arr [])) (.str "w5") (2 + 1) :=
  c5_no_deadline_no_timeout 2 "w5" 200 (completedRespJson (.arr []) (.str "w5"))
    (.arr []) (.str "w5") rfl rfl rfl

/-- Claim C7: with the remote reporting `"processing"` on the first two
status queries and `"completed"` on the third, the wait loop performs
exactly two suspensions (one `sleep(30)` before each re-poll, none after
the terminal poll) and then returns the completed result: the printed run
shows one `"Transcript processing ..."` per sleep, and the outcome records
the saved categories with a sleep count of exactly 2. -/
theorem c7_two_sleeps_then_completed :
    assembly_poll "t7" (.resp processingResp)
        [.resp processingResp,
         .resp ⟨200, .ok (completedRespJson (.obj [("label", .str "Science")]) (.str "t7"))⟩] =
      ([.transcribingAt "t7", .processing, .processing, .savedTo "t7_categories.json"],
       .saved "t7_categories.json" (dumps (.obj [("label", .str "Science")]))
         (.str "t7") 2) :=
  rfl

/-! ## Claims about the submission phase -/

/-- Counterexample to claim C6 as stated: `assembly` never inspects the HTTP
status codes.  Both submission responses here carry status 500 — a
non-success status — yet submission proceeds and succeeds, because the only
thing the code looks at is the presence of the `upload_url` and `id`
fields in the bodies. -/
theorem c6_counterexample :
    (HttpResponse.mk 500 (.ok (.obj [("upload_url", .str "https://u")]))).status = 500 ∧
    assembly_submit ⟨500, .ok (.obj [("upload_url", .str "https://u")])⟩
        (fun _ => ⟨500, .ok (.obj [("id", .str "jid1")])⟩) =
      .ok ⟨.str "https://u",
           .obj [("audio_url", .str "https://u"), ("iab_categories", .str "True")],
           "jid1"⟩ :=
  ⟨rfl, rfl⟩

/-- Claim C6, amended: after reading `upload_url` from the upload response
the workflow issues a second request whose body references the uploaded
resource URL (`{audio_url: <upload_url>, iab_categories: "True"}`) and
obtains the job's id from its response; if either response body misses the
expected identifier field (`upload_url` or `id`), submission fails with the
uncaught `KeyError` instead of proceeding.  The HTTP status codes (here
arbitrary `su`, `st2`) are never consulted. -/
theorem c6_submit_checks_fields_not_status (su st2 : Nat) (uj tj : JValue) :
    (∀ e, uj.getKey "upload_url" = .error e →
        assembly_submit ⟨su, .ok uj⟩ (fun _ => ⟨st2, .ok tj⟩) = .error e) ∧
    ∀ url, uj.getKey "upload_url" = .ok url →
      (∀ e, tj.getKey "id" = .error e →
          assembly_submit ⟨su, .ok uj⟩ (fun _ => ⟨st2, .ok tj⟩) = .error e) ∧
      ∀ tid, tj.getKey "id" = .ok (.str tid) →
        assembly_submit ⟨su, .ok uj⟩ (fun _ => ⟨st2, .ok tj⟩) =
          .ok ⟨url, .obj [("audio_url", url), ("iab_categories", .str "True")], tid⟩ := by
  constructor
  · intro e he
    simp [assembly_submit, he]
  · intro url hu
    constructor
    · intro e he
      simp [assembly_submit, hu, he]
    · intro tid hid
      simp [assembly_submit, hu, hid, asStr]

/-- Witness for the amended C6 on concrete responses with non-success
statuses 404 and 503: submission succeeds with the id from the second
response and a job-creation request referencing the uploaded URL. -/
theorem c6_submit_checks_fields_not_status_witness :
    assembly_submit ⟨404, .ok (.obj [("upload_url", .str "u2")])⟩
        (fun _ => ⟨503, .ok (.obj [("id", .str "tid2")])⟩) =
      .ok ⟨.str "u2", .obj [("audio_url", .str "u2"), ("iab_categories", .str "True")],
           "tid2"⟩ :=
  ((c6_submit_checks_fields_not_status 404 503 (.obj [("upload_url", .str "u2")])
      (.obj [("id", .str "tid2")])).2 (.str "u2") rfl).2 "tid2" rfl

end ClickTutorial
